import Mathlib

/-!
# Shallow embedding of the causal chat system (src/frontend/script.js)

The source file contains a browser client (`VectorClockManager`,
`CausalOrderEngine`, `CausalChatApp`) and a WebSocket hub (`ChatServer`,
two revisions; the later revision, starting near line 1841, is the one the
claims cite and the one embedded here).

JavaScript `Map<string, number>` objects are embedded as insertion-ordered
association lists.  `Map.get` returns the value of the most recent `set`
for a key (for a map built by `new Map(array)` from an array with duplicate
keys, the last pair wins), `Map.set` overwrites an existing key in place
and otherwise appends, and `Map.delete` removes the key.  Numbers are
embedded as `Nat` (all clock values and timestamps in the program are
non-negative integers).
-/

/-- `Map.get` on an insertion-ordered association list: the value of the
last pair whose key matches, as JavaScript `new Map(entries).get k`. -/
def jget {α : Type} : List (String × α) → String → Option α
  | [], _ => none
  | (a, v) :: rest, k =>
    match jget rest k with
    | some w => some w
    | none => if a = k then some v else none

/-- `map.get(k) || 0` / `map.get(k) ?? default`: a missing entry reads as
the default (`0` for clocks). -/
def jgetD {α : Type} (m : List (String × α)) (k : String) (d : α) : α :=
  (jget m k).getD d

/-- `Map.has`. -/
def jhas {α : Type} (m : List (String × α)) (k : String) : Bool :=
  m.any (fun p => p.1 == k)

/-- `Map.set`: overwrite an existing key in place (keeping its insertion
position), otherwise append the new entry at the end. -/
def jset {α : Type} (m : List (String × α)) (k : String) (v : α) : List (String × α) :=
  if jhas m k then m.map (fun p => if p.1 = k then (k, v) else p)
  else m ++ [(k, v)]

/-- `Map.delete`. -/
def jdel {α : Type} (m : List (String × α)) (k : String) : List (String × α) :=
  m.filter (fun p => p.1 != k)

/-!
## VectorClockManager (script.js lines 2-128)

`this.clock` is a `Map` from user id to timestamp.  The constructor
initialises it with `{userId: 0}`.
-/

structure VectorClockManager where
  userId : String
  clock : List (String × Nat)
  deriving DecidableEq

namespace VectorClockManager

/-- `new VectorClockManager(userId)` (lines 3-7). -/
def init (userId : String) : VectorClockManager :=
  { userId := userId, clock := jset [] userId 0 }

/-- `addUser(userId)` (lines 9-13): insert the id with value 0 when absent. -/
def addUser (vcm : VectorClockManager) (uid : String) : VectorClockManager :=
  if jhas vcm.clock uid then vcm
  else { vcm with clock := jset vcm.clock uid 0 }

/-- `increment()` (lines 15-20): bump the own entry and return the clock's
entry array (`getClockArray`). -/
def increment (vcm : VectorClockManager) : VectorClockManager × List (String × Nat) :=
  let current := jgetD vcm.clock vcm.userId 0
  let clock' := jset vcm.clock vcm.userId (current + 1)
  ({ vcm with clock := clock' }, clock')

/-- The `for (const [userId, localTime] of this.clock.entries())` loop of
`isCausallyReady` (lines 63-72): skip the sender; return `false` as soon as
one entry has `messageTime > localTime`; the loop body performs no write to
the clock, so the manager is returned unchanged on every exit path. -/
def checkOthers (vcm : VectorClockManager) (messageClock : List (String × Nat))
    (senderId : String) : List (String × Nat) → Bool × VectorClockManager
  | [] => (true, vcm)
  | (userId, localTime) :: rest =>
    if userId = senderId then checkOthers vcm messageClock senderId rest
    else
      let messageTime := jgetD messageClock userId 0
      if localTime < messageTime then (false, vcm)
      else checkOthers vcm messageClock senderId rest

/-- `isCausallyReady(messageClockArray, senderId)` (lines 42-76), embedded
as a state transformer on the manager to record that the method only reads
`this.clock`.  `new Map(messageClockArray)` is the association-list lookup
`jget` (last pair wins); `|| 0` is `jgetD _ _ 0`. -/
def isCausallyReadyS (vcm : VectorClockManager) (messageClockArray : List (String × Nat))
    (senderId : String) : Bool × VectorClockManager :=
  let senderLocalTime := jgetD vcm.clock senderId 0
  let senderMessageTime := jgetD messageClockArray senderId 0
  if senderMessageTime ≠ senderLocalTime + 1 then (false, vcm)
  else checkOthers vcm messageClockArray senderId vcm.clock

/-- Value returned by `isCausallyReady`. -/
def isCausallyReady (vcm : VectorClockManager) (messageClockArray : List (String × Nat))
    (senderId : String) : Bool :=
  (isCausallyReadyS vcm messageClockArray senderId).1

/-- `canDeliverBufferedMessage` (lines 79-81) just forwards to
`isCausallyReady`. -/
def canDeliverBufferedMessageS (vcm : VectorClockManager)
    (messageClockArray : List (String × Nat)) (senderId : String) :
    Bool × VectorClockManager :=
  isCausallyReadyS vcm messageClockArray senderId

/-- Value returned by `canDeliverBufferedMessage`. -/
def canDeliverBufferedMessage (vcm : VectorClockManager)
    (messageClockArray : List (String × Nat)) (senderId : String) : Bool :=
  (canDeliverBufferedMessageS vcm messageClockArray senderId).1

/-- Modelled from the spec: `VectorClockManager.merge` is invoked by
`CausalChatApp.handleChatMessage` (script.js line 1077) and
`CausalChatApp.deliverBufferedMessages` (line 1307), but no `merge` method
is defined anywhere in the source.  Spec section 4.1: "merge(snapshot) —
for every `(id, t)` in the snapshot, set local entry to `max(local[id], t)`.
Unknown `id`s are implicitly added." -/
def merge (vcm : VectorClockManager) (snapshot : List (String × Nat)) : VectorClockManager :=
  { vcm with
    clock := snapshot.foldl
      (fun c p => jset c p.1 (max (jgetD c p.1 0) p.2)) vcm.clock }

end VectorClockManager

/-!
## CausalOrderEngine (script.js lines 131-266)

Messages as the client constructs them in `handleChatMessage` (lines
1052-1062); the fields the engine and the claims consume are kept
(`isOwn`, `roomId` and `metadata` are never branched on by the embedded
code paths and are omitted).
-/

structure Message where
  id : String
  userId : String
  username : String
  text : String
  vectorClock : List (String × Nat)
  timestamp : Nat
  deriving DecidableEq

/-- A buffer entry `{message, receivedAt, attempts}` (line 170-174). -/
structure BufferEntry where
  message : Message
  receivedAt : Nat
  attempts : Nat
  deriving DecidableEq

/-- A record pushed onto `this.deliveredMessages`.  Immediate delivery
(lines 154-158) pushes `{id, timestamp, deliveredAt}`; delivery from the
buffer (lines 221-226) additionally records `waitTime`. -/
structure DeliveredRecord where
  id : String
  timestamp : Nat
  deliveredAt : Nat
  waitTime : Option Nat
  deriving DecidableEq

/-- `this.stats` (lines 135-140). -/
structure EngineStats where
  totalProcessed : Nat
  deliveredImmediately : Nat
  buffered : Nat
  maxBufferSize : Nat
  deriving DecidableEq

structure CausalOrderEngine where
  messageBuffer : List (String × BufferEntry)
  deliveredMessages : List DeliveredRecord
  stats : EngineStats
  deriving DecidableEq

/-- `new CausalOrderEngine()` (lines 132-141), also the state after
`reset()` (lines 256-265). -/
def CausalOrderEngine.init : CausalOrderEngine :=
  { messageBuffer := [], deliveredMessages := [],
    stats := { totalProcessed := 0, deliveredImmediately := 0, buffered := 0,
               maxBufferSize := 0 } }

/-- Result of `processMessage` (lines 160-164 / 178-183). -/
structure ProcessResult where
  isCausallyReady : Bool
  messageId : String
  action : String
  reason : Option String
  deriving DecidableEq

/-- `processMessage(message, vectorClock, senderId)` (lines 143-185).
`Date.now()` is passed in as `now`.  There is no duplicate check: the
message id is looked up nowhere before processing. -/
def processMessage (eng : CausalOrderEngine) (message : Message)
    (vectorClock : VectorClockManager) (senderId : String) (now : Nat) :
    ProcessResult × CausalOrderEngine :=
  let eng := { eng with stats := { eng.stats with
    totalProcessed := eng.stats.totalProcessed + 1 } }
  let isReady := vectorClock.isCausallyReady message.vectorClock senderId
  if isReady then
    let eng := { eng with
      stats := { eng.stats with
        deliveredImmediately := eng.stats.deliveredImmediately + 1 },
      deliveredMessages := eng.deliveredMessages ++
        [{ id := message.id, timestamp := message.timestamp, deliveredAt := now,
           waitTime := none }] }
    ({ isCausallyReady := true, messageId := message.id,
       action := "deliver_immediately", reason := none }, eng)
  else
    let buffer' := jset eng.messageBuffer message.id
      { message := message, receivedAt := now, attempts := 0 }
    let eng := { eng with
      messageBuffer := buffer',
      stats := { eng.stats with
        buffered := eng.stats.buffered + 1,
        maxBufferSize := max eng.stats.maxBufferSize buffer'.length } }
    ({ isCausallyReady := false, messageId := message.id,
       action := "buffered", reason := some "waiting_for_causal_dependencies" }, eng)

/-- An element of the `readyMessages` array built by
`checkBufferedMessages` (lines 194-200). -/
structure ReadyInfo where
  messageId : String
  message : Message
  receivedAt : Nat
  attempts : Nat
  waitTime : Nat
  deriving DecidableEq

/-- The `for (const [messageId, bufferEntry] of this.messageBuffer)` loop of
`checkBufferedMessages` (lines 190-204): ready entries are appended to
`readyMessages` in buffer iteration order (no sorting of any kind); entries
that are still not ready get `attempts++`. -/
def checkBufLoop (vectorClock : VectorClockManager) (now : Nat) :
    List (String × BufferEntry) → List ReadyInfo × List (String × BufferEntry)
  | [] => ([], [])
  | (messageId, be) :: rest =>
    let tail := checkBufLoop vectorClock now rest
    if vectorClock.canDeliverBufferedMessage be.message.vectorClock be.message.userId then
      ({ messageId := messageId, message := be.message, receivedAt := be.receivedAt,
         attempts := be.attempts, waitTime := now - be.receivedAt } :: tail.1,
       (messageId, be) :: tail.2)
    else
      (tail.1, (messageId, { be with attempts := be.attempts + 1 }) :: tail.2)

/-- `checkBufferedMessages(vectorClock)` (lines 187-207). -/
def checkBufferedMessages (eng : CausalOrderEngine) (vectorClock : VectorClockManager)
    (now : Nat) : List ReadyInfo × CausalOrderEngine :=
  let r := checkBufLoop vectorClock now eng.messageBuffer
  (r.1, { eng with messageBuffer := r.2 })

/-- `deliverMessage(messageId)` (lines 209-238): remove the entry from the
buffer, push a delivered record, and hand back the message with its buffer
info; `null` when the id is not buffered. -/
def deliverMessage (eng : CausalOrderEngine) (messageId : String) (now : Nat) :
    Option (Message × BufferEntry) × CausalOrderEngine :=
  match jget eng.messageBuffer messageId with
  | none => (none, eng)
  | some be =>
    let eng := { eng with
      messageBuffer := jdel eng.messageBuffer messageId,
      deliveredMessages := eng.deliveredMessages ++
        [{ id := messageId, timestamp := be.message.timestamp, deliveredAt := now,
           waitTime := some (now - be.receivedAt) }] }
    (some (be.message, be), eng)

/-!
## CausalChatApp (script.js lines 667-1469), message-handling slice

Only the state touched by `handleChatMessage` and
`deliverBufferedMessages` is modelled: the user-id registry `this.users`
(kept as the list of ids), the vector clock, the engine, the displayed
message list `this.messages` and the app-level `this.bufferedMessages`
list.  UI calls, notifications and statistics mutate only the DOM and are
omitted.
-/

structure CausalChatApp where
  userId : String
  users : List String
  vectorClock : VectorClockManager
  causalEngine : CausalOrderEngine
  messages : List Message
  bufferedMessages : List Message
  deriving DecidableEq

/-- `findIndex` + `splice(index, 1)` on `this.bufferedMessages`
(lines 1300-1303): remove the first message with the given id, if any. -/
def removeFirstById (l : List Message) (mid : String) : List Message :=
  match l.findIdx? (fun m => m.id == mid) with
  | some i => l.eraseIdx i
  | none => l

/-- `deliverBufferedMessages()` (lines 1287-1315): one pass — collect the
ready subset once, then for each ready id deliver it from the engine,
display it, drop it from the app-level buffer list, and merge its clock.
The method is NOT re-invoked on the messages that become ready because of
these merges. -/
def deliverBufferedMessages (app : CausalChatApp) (now : Nat) : CausalChatApp :=
  let r := checkBufferedMessages app.causalEngine app.vectorClock now
  let app := { app with causalEngine := r.2 }
  r.1.foldl
    (fun app ri =>
      let d := deliverMessage app.causalEngine ri.messageId now
      let app := { app with causalEngine := d.2 }
      match d.1 with
      | none => app
      | some (msg, _) =>
        { app with
          messages := app.messages ++ [msg],
          bufferedMessages := removeFirstById app.bufferedMessages msg.id,
          vectorClock := app.vectorClock.merge msg.vectorClock })
    app

/-- `handleChatMessage(data)` (lines 1029-1109).  The incoming frame is
passed as an already-constructed `Message`; `Date.now()` as `now`.  The
order of effects is taken from the source: (1) unknown senders are added
to `this.users` and to the clock, (2) the stamped clock is merged into the
local clock ("CRITICAL FIX: Always merge vector clocks BEFORE checking
causal readiness", line 1073 — the merge happens before and regardless of
the delivery decision), (3) `processMessage` decides, (4) on ready the
message is displayed and `deliverBufferedMessages` runs; otherwise the
message is pushed onto `this.bufferedMessages`. -/
def handleChatMessage (app : CausalChatApp) (data : Message) (now : Nat) : CausalChatApp :=
  let app :=
    if app.users.contains data.userId then app
    else { app with users := app.users ++ [data.userId],
                    vectorClock := app.vectorClock.addUser data.userId }
  let app := { app with vectorClock := app.vectorClock.merge data.vectorClock }
  let r := processMessage app.causalEngine data app.vectorClock data.userId now
  let app := { app with causalEngine := r.2 }
  if r.1.isCausallyReady then
    let app := { app with messages := app.messages ++ [data] }
    deliverBufferedMessages app now
  else
    { app with bufferedMessages := app.bufferedMessages ++ [data] }

/-!
## Drain driver and auxiliary predicates
-/

/-- The draining discipline of spec sections 4.2 and 8: repeat the code's
single drain pass — `checkBufferedMessages`, then for each ready id
`deliverMessage` followed by a clock merge, exactly the sequence
`deliverBufferedMessages` performs (lines 1287-1315) — until a pass finds
no ready message.  The returned flag is `true` when the loop terminated
with such an empty pass and `false` when the fuel ran out first. -/
def drainUntilEmpty : Nat → CausalOrderEngine → VectorClockManager → Nat →
    CausalOrderEngine × VectorClockManager × Bool
  | 0, eng, vcm, _ => (eng, vcm, false)
  | fuel + 1, eng, vcm, now =>
    let r := checkBufferedMessages eng vcm now
    if r.1.isEmpty then (r.2, vcm, true)
    else
      let st := r.1.foldl
        (fun (st : CausalOrderEngine × VectorClockManager) ri =>
          let d := deliverMessage st.1 ri.messageId now
          match d.1 with
          | some (msg, _) => (d.2, st.2.merge msg.vectorClock)
          | none => (d.2, st.2))
        (r.2, vcm)
      drainUntilEmpty fuel st.1 st.2 now

/-- No entry of the buffer passes `canDeliverBufferedMessage` at the given
clock. -/
def noBufferedReady (eng : CausalOrderEngine) (vcm : VectorClockManager) : Bool :=
  eng.messageBuffer.all
    (fun kv => !(vcm.canDeliverBufferedMessage kv.2.message.vectorClock kv.2.message.userId))

/-- Componentwise `≤` of two clock snapshots, entries missing from either
map read as 0 (keys absent from the first snapshot hold trivially). -/
def vcLE (c1 c2 : List (String × Nat)) : Bool :=
  (c1.map Prod.fst).all (fun k => jgetD c1 k 0 ≤ jgetD c2 k 0)

/-- Strict happens-before on clock snapshots. -/
def vcLT (c1 c2 : List (String × Nat)) : Bool :=
  vcLE c1 c2 && !(vcLE c2 c1)

/-- The delivery order claimed for one drain pass, transcribed from the
claim's words: happens-before first; causally incomparable messages by
`received_at` ascending, then by `message_id` lexicographically. -/
def claimDrainLE (a b : ReadyInfo) : Bool :=
  if vcLT a.message.vectorClock b.message.vectorClock then true
  else if vcLT b.message.vectorClock a.message.vectorClock then false
  else if a.receivedAt < b.receivedAt then true
  else if b.receivedAt < a.receivedAt then false
  else (compare a.messageId b.messageId).isLE

/-- Adjacent-pairs sortedness under a boolean order. -/
def sortedBy {α : Type} (le : α → α → Bool) : List α → Bool
  | [] => true
  | [_] => true
  | a :: b :: rest => le a b && sortedBy le (b :: rest)

/-- The readiness predicate as claim C1 words it: the sender entry is the
immediate next tick and, for EVERY participant other than the sender —
including ids present only in the message clock — the stamped entry is at
most the local one, missing entries read as 0. -/
def claimReadyC1 (localClock messageClock : List (String × Nat)) (senderId : String) : Prop :=
  jgetD messageClock senderId 0 = jgetD localClock senderId 0 + 1 ∧
  ∀ p : String, p ≠ senderId → jgetD messageClock p 0 ≤ jgetD localClock p 0

/-- Last element of a list satisfying a predicate (the last `Map.set`
winner among a fold's contributions). -/
def lastMatch {α : Type} (p : α → Bool) : List α → Option α
  | [] => none
  | x :: rest =>
    match lastMatch p rest with
    | some r => some r
    | none => if p x then some x else none

/-!
## ChatServer (script.js lines 1848-2271, the revision the claims cite)

`this.clients` is a `Map` from WebSocket to client record; the socket keys
are opaque, so the registry is kept as the list of client records in
insertion order and records are addressed by client id (ids are fresh
UUIDs, one record per connection).  `this.userStats` only feeds the
unobserved `getStats`/`updateUserStats` counters and is not modelled.
Outbound traffic (`ws.send`, `broadcastToRoom`) does not mutate server
state; where a claim is about emissions, `handleChat` returns them
explicitly.
-/

structure SClient where
  id : String
  username : Option String
  roomId : String
  vectorClock : List (String × Nat)
  deriving DecidableEq

structure SRoom where
  id : String
  name : String
  users : List String
  deriving DecidableEq

structure SMessage where
  id : String
  userId : String
  username : Option String
  text : String
  vectorClock : List (String × Nat)
  timestamp : Nat
  roomId : String
  metaSimulateDelay : Bool
  metaDelayMs : Option Nat
  deriving DecidableEq

structure ChatServer where
  clients : List SClient
  rooms : List (String × SRoom)
  messageHistory : List (String × List SMessage)
  deriving DecidableEq

/-- Mutate the client record with the given id in place. -/
def updateClient (s : ChatServer) (cid : String) (f : SClient → SClient) : ChatServer :=
  { s with clients := s.clients.map (fun c => if c.id = cid then f c else c) }

/-- `this.clients.get(ws)` for the connection with the given client id. -/
def findClient (s : ChatServer) (cid : String) : Option SClient :=
  s.clients.find? (fun c => c.id == cid)

/-- The `this.clients.forEach` loop of `handleJoin` (lines 1951-1963):
starting from `new Map()`, copy `existingClient.vectorClock.get(existingClient.id) || 0`
for every connected client whose `roomId` equals the join room and whose id
differs from the joiner's — whether or not that client has joined and is a
member of the room.  (The `existingClient.vectorClock &&` truthiness guard
always holds: every connection gets a `Map` at `handleConnection`.) -/
def initClockLoop (clients : List SClient) (rid cid : String) : List (String × Nat) :=
  clients.foldl
    (fun acc c =>
      if c.roomId = rid ∧ c.id ≠ cid then
        jset acc c.id (jgetD c.vectorClock c.id 0)
      else acc)
    []

/-- `handleJoin(client, data)` (lines 1936-1992).  `client.username` and
`client.roomId` are assigned before the room lookup; when the room does not
exist nothing else happens.  Broadcasts (`user_list`, the system notice,
`join_success`) do not mutate server state and are omitted. -/
def handleJoin (s : ChatServer) (cid : String) (username : String)
    (dataRoomId : Option String) : ChatServer :=
  let rid := dataRoomId.getD "main"
  let s := updateClient s cid (fun c => { c with username := some username, roomId := rid })
  match jget s.rooms rid with
  | none => s
  | some room =>
    let room' := { room with
      users := if room.users.contains cid then room.users else room.users ++ [cid] }
    let s := { s with rooms := jset s.rooms rid room' }
    let clock := jset (initClockLoop s.clients rid cid) cid 0
    updateClient s cid (fun c => { c with vectorClock := clock })

/-- Outbound emissions of `handleChat`. -/
inductive ServerEmit where
  | broadcast (roomId : String) (message : SMessage)
  | ack (cid : String) (messageId : String)
  deriving DecidableEq

/-- `handleChat(client, data)` (lines 1995-2066).  Returns the new server
state, the emissions performed synchronously (in program order), and the
emissions scheduled through `setTimeout` as `(delay, emission)` pairs — a
scheduled emission fires only after the synchronous ones.  The delay is
`data.metadata.delayMs || 1000`: a missing OR ZERO `delayMs` falls back to
1000.  The sender's clock increment, the history append and the
`message_delivered` ack are all synchronous. -/
def handleChat (s : ChatServer) (cid : String) (text : String)
    (simulateDelay : Bool) (delayMs : Option Nat) (newId : String) (now : Nat) :
    ChatServer × List ServerEmit × List (Nat × ServerEmit) :=
  match findClient s cid with
  | none => (s, [], [])
  | some client =>
    let roomId := client.roomId
    match jget s.rooms roomId with
    | none => (s, [], [])
    | some _room =>
      let currentValue := jgetD client.vectorClock client.id 0
      let vectorClockArray := jset client.vectorClock client.id (currentValue + 1)
      let s := updateClient s cid (fun c => { c with vectorClock := vectorClockArray })
      let message : SMessage :=
        { id := newId, userId := client.id, username := client.username, text := text,
          vectorClock := vectorClockArray, timestamp := now, roomId := roomId,
          metaSimulateDelay := simulateDelay, metaDelayMs := delayMs }
      let history := (jget s.messageHistory roomId).getD []
      let s := { s with messageHistory := jset s.messageHistory roomId (history ++ [message]) }
      if simulateDelay then
        let d := match delayMs with
          | some dm => if dm = 0 then 1000 else dm
          | none => 1000
        (s, [ServerEmit.ack cid newId], [(d, ServerEmit.broadcast roomId message)])
      else
        (s, [ServerEmit.broadcast roomId message, ServerEmit.ack cid newId], [])

/-- `sendHistory(client)` (lines 2196-2203): reply with
`history.slice(-50)` and the total length.  The client lookup mirrors the
dispatcher in `handleMessage`. -/
def sendHistory (s : ChatServer) (cid : String) : Option (List SMessage × Nat) :=
  match findClient s cid with
  | none => none
  | some client =>
    let history := (jget s.messageHistory client.roomId).getD []
    some (history.drop (history.length - 50), history.length)

/-- `data.metadata.delayMs || 1000` (line 2054): a missing or zero
`delayMs` falls back to 1000 milliseconds. -/
def defaultDelay (delayMs : Option Nat) : Nat :=
  match delayMs with
  | some dm => if dm = 0 then 1000 else dm
  | none => 1000

/-!
## Concrete states used by counterexamples and witnesses
-/

/-- Recipient "b" right after joining alone: clock `{b: 0}`. -/
def appB : CausalChatApp :=
  { userId := "b", users := ["b"],
    vectorClock := { userId := "b", clock := [("b", 0)] },
    causalEngine := CausalOrderEngine.init, messages := [], bufferedMessages := [] }

/-- First message from "a": stamped clock `{a: 1}`. -/
def msgA1 : Message :=
  { id := "m1", userId := "a", username := "Alice", text := "hi",
    vectorClock := [("a", 1)], timestamp := 10 }

/-- Second message from "a": stamped clock `{a: 2}`. -/
def msgA2 : Message :=
  { id := "m1", userId := "a", username := "Alice", text := "hi again",
    vectorClock := [("a", 2)], timestamp := 12 }

/-- First message from "b": stamped clock `{b: 1}`. -/
def msgB1 : Message :=
  { id := "m2", userId := "b", username := "Bob", text := "yo",
    vectorClock := [("b", 1)], timestamp := 0 }

/-- A message from "a" far ahead of any small clock: `{a: 5}`. -/
def msgA5 : Message :=
  { id := "m9", userId := "a", username := "Alice", text := "future",
    vectorClock := [("a", 5)], timestamp := 0 }

/-- Recipient "b" knowing "a" and "b", nothing observed yet. -/
def vcmAB : VectorClockManager :=
  { userId := "b", clock := [("a", 0), ("b", 0)] }

/-- Recipient "c" knowing "a", "b" and "c", nothing observed yet. -/
def vcmABC : VectorClockManager :=
  { userId := "c", clock := [("c", 0), ("a", 0), ("b", 0)] }

/-- Engine whose buffer already holds `msgA2` under id "m1" (after one
earlier buffering offer). -/
def engWithM1 : CausalOrderEngine :=
  { messageBuffer := [("m1", { message := msgA2, receivedAt := 100, attempts := 3 })],
    deliveredMessages := [],
    stats := { totalProcessed := 1, deliveredImmediately := 0, buffered := 1,
               maxBufferSize := 1 } }

/-- Engine buffering two causally incomparable, simultaneously ready
messages: `msgB1` was buffered first (received at 100), `msgA1` second
(received at 50). -/
def engTwoReady : CausalOrderEngine :=
  { messageBuffer := [("m2", { message := msgB1, receivedAt := 100, attempts := 0 }),
                      ("m1", { message := msgA1, receivedAt := 50, attempts := 0 })],
    deliveredMessages := [],
    stats := { totalProcessed := 2, deliveredImmediately := 0, buffered := 2,
               maxBufferSize := 2 } }

/-- Engine stuck with one message whose dependencies can never arrive at
`vcmAB`. -/
def engStuck : CausalOrderEngine :=
  { messageBuffer := [("m9", { message := msgA5, receivedAt := 0, attempts := 0 })],
    deliveredMessages := [],
    stats := { totalProcessed := 1, deliveredImmediately := 0, buffered := 1,
               maxBufferSize := 1 } }

/-- Server with two connections in the default room, neither of which has
joined yet (no username, empty member set): "x" then "c". -/
def serverAnon : ChatServer :=
  { clients := [{ id := "x", username := none, roomId := "main", vectorClock := [] },
                { id := "c", username := none, roomId := "main", vectorClock := [] }],
    rooms := [("main", { id := "main", name := "Main Chat Room", users := [] })],
    messageHistory := [("main", [])] }

/-- Server with one joined member "a" (self-entry 3) and a fresh
connection "c". -/
def serverJoined : ChatServer :=
  { clients := [{ id := "a", username := some "Alice", roomId := "main",
                  vectorClock := [("a", 3)] },
                { id := "c", username := none, roomId := "main", vectorClock := [] }],
    rooms := [("main", { id := "main", name := "Main Chat Room", users := ["a"] })],
    messageHistory := [("main", [])] }

/-- Server with a single joined member "a". -/
def serverOneUser : ChatServer :=
  { clients := [{ id := "a", username := some "Alice", roomId := "main",
                  vectorClock := [("a", 0)] }],
    rooms := [("main", { id := "main", name := "Main Chat Room", users := ["a"] })],
    messageHistory := [("main", [])] }

/-- `n` successive chat frames from "a" in `serverOneUser`. -/
def chatN : Nat → ChatServer
  | 0 => serverOneUser
  | n + 1 => (handleChat (chatN n) "a" "x" false none "m" 0).1

/-!
# Lemmas and claim theorems
-/

theorem jhas_cons {α : Type} (p : String × α) (rest : List (String × α)) (k : String) :
    jhas (p :: rest) k = (p.1 == k || jhas rest k) := by
  simp [jhas]

theorem jget_eq_none_of_not_has {α : Type} (m : List (String × α)) (k : String)
    (h : jhas m k = false) : jget m k = none := by
  induction m with
  | nil => rfl
  | cons p rest ih =>
    rw [jhas_cons] at h
    rcases Bool.or_eq_false_iff.mp h with ⟨h1, h2⟩
    simp only [jget, ih h2]
    simp [beq_iff_eq] at h1
    simp [if_neg h1]

theorem map_set_id_of_not_has {α : Type} (m : List (String × α)) (k : String) (v : α)
    (h : jhas m k = false) :
    m.map (fun p => if p.1 = k then (k, v) else p) = m := by
  induction m with
  | nil => rfl
  | cons p rest ih =>
    rw [jhas_cons] at h
    rcases Bool.or_eq_false_iff.mp h with ⟨h1, h2⟩
    have hp : p.1 ≠ k := by simpa using h1
    simp only [List.map_cons, if_neg hp, ih h2]

theorem jget_map_set_self {α : Type} (m : List (String × α)) (k : String) (v : α)
    (h : jhas m k = true) :
    jget (m.map (fun p => if p.1 = k then (k, v) else p)) k = some v := by
  induction m with
  | nil => simp [jhas] at h
  | cons p rest ih =>
    obtain ⟨a, w⟩ := p
    rw [List.map_cons]
    by_cases hp : a = k
    · have hhead : (if ((a, w) : String × α).1 = k then (k, v) else (a, w)) = (k, v) := by
        simp [hp]
      rw [hhead]
      simp only [jget]
      by_cases hr : jhas rest k = true
      · rw [ih hr]
      · have hrn : jhas rest k = false := Bool.eq_false_iff.mpr hr
        rw [map_set_id_of_not_has rest k v hrn, jget_eq_none_of_not_has rest k hrn]
        simp
    · have hhead : (if ((a, w) : String × α).1 = k then (k, v) else (a, w)) = (a, w) := by
        simp [hp]
      rw [hhead]
      simp only [jget]
      have hr : jhas rest k = true := by
        rw [jhas_cons] at h
        simpa [hp] using h
      rw [ih hr]

theorem jget_map_set_other {α : Type} (m : List (String × α)) (k k' : String) (v : α)
    (hne : k' ≠ k) :
    jget (m.map (fun p => if p.1 = k then (k, v) else p)) k' = jget m k' := by
  induction m with
  | nil => rfl
  | cons p rest ih =>
    obtain ⟨a, w⟩ := p
    rw [List.map_cons]
    by_cases hp : a = k
    · have hhead : (if ((a, w) : String × α).1 = k then (k, v) else (a, w)) = (k, v) := by
        simp [hp]
      rw [hhead]
      simp only [jget]
      rw [ih]
      have hk : ¬ k = k' := fun hh => hne hh.symm
      have ha : ¬ a = k' := by rw [hp]; exact hk
      rw [if_neg hk, if_neg ha]
    · have hhead : (if ((a, w) : String × α).1 = k then (k, v) else (a, w)) = (a, w) := by
        simp [hp]
      rw [hhead]
      simp only [jget]
      rw [ih]

theorem jget_append_single {α : Type} (m : List (String × α)) (k k' : String) (v : α) :
    jget (m ++ [(k, v)]) k' = if k = k' then some v else jget m k' := by
  induction m with
  | nil =>
    by_cases hk : k = k' <;> simp [jget, hk]
  | cons p rest ih =>
    obtain ⟨a, w⟩ := p
    rw [List.cons_append]
    simp only [jget]
    rw [ih]
    by_cases hk : k = k'
    · simp only [if_pos hk]
    · simp only [if_neg hk]

theorem jget_jset_self {α : Type} (m : List (String × α)) (k : String) (v : α) :
    jget (jset m k v) k = some v := by
  unfold jset
  by_cases h : jhas m k = true
  · rw [if_pos h]; exact jget_map_set_self m k v h
  · rw [if_neg h, jget_append_single]; simp

theorem jget_jset_other {α : Type} (m : List (String × α)) (k k' : String) (v : α)
    (hne : k' ≠ k) : jget (jset m k v) k' = jget m k' := by
  unfold jset
  by_cases h : jhas m k = true
  · rw [if_pos h]; exact jget_map_set_other m k k' v hne
  · rw [if_neg h, jget_append_single, if_neg (fun h' => hne h'.symm)]

theorem checkOthers_snd (vcm : VectorClockManager) (mc : List (String × Nat))
    (s : String) (l : List (String × Nat)) :
    (VectorClockManager.checkOthers vcm mc s l).2 = vcm := by
  induction l with
  | nil => rfl
  | cons p rest ih =>
    obtain ⟨u, t⟩ := p
    simp only [VectorClockManager.checkOthers]
    by_cases hu : u = s
    · rw [if_pos hu]; exact ih
    · rw [if_neg hu]
      by_cases ht : t < jgetD mc u 0
      · rw [if_pos ht]
      · rw [if_neg ht]; exact ih

theorem checkOthers_fst_iff (vcm : VectorClockManager) (mc : List (String × Nat))
    (s : String) (l : List (String × Nat)) :
    (VectorClockManager.checkOthers vcm mc s l).1 = true ↔
      ∀ p ∈ l, p.1 ≠ s → jgetD mc p.1 0 ≤ p.2 := by
  induction l with
  | nil => simp [VectorClockManager.checkOthers]
  | cons p rest ih =>
    obtain ⟨u, t⟩ := p
    simp only [VectorClockManager.checkOthers]
    by_cases hu : u = s
    · rw [if_pos hu, ih]
      constructor
      · intro h q hq hqs
        rcases List.mem_cons.mp hq with rfl | hq'
        · exact absurd hu hqs
        · exact h q hq' hqs
      · intro h q hq hqs
        exact h q (List.mem_cons_of_mem _ hq) hqs
    · rw [if_neg hu]
      by_cases ht : t < jgetD mc u 0
      · rw [if_pos ht]
        constructor
        · intro h; cases h
        · intro h
          exfalso
          have hle := h (u, t) (List.mem_cons_self _ _) hu
          simp only at hle
          omega
      · rw [if_neg ht, ih]
        constructor
        · intro h q hq hqs
          rcases List.mem_cons.mp hq with rfl | hq'
          · simpa using Nat.le_of_not_lt ht
          · exact h q hq' hqs
        · intro h q hq hqs
          exact h q (List.mem_cons_of_mem _ hq) hqs

theorem isCausallyReady_true_iff (vcm : VectorClockManager)
    (mc : List (String × Nat)) (s : String) :
    vcm.isCausallyReady mc s = true ↔
      (jgetD mc s 0 = jgetD vcm.clock s 0 + 1 ∧
       ∀ p ∈ vcm.clock, p.1 ≠ s → jgetD mc p.1 0 ≤ p.2) := by
  simp only [VectorClockManager.isCausallyReady, VectorClockManager.isCausallyReadyS]
  by_cases h : jgetD mc s 0 ≠ jgetD vcm.clock s 0 + 1
  · rw [if_pos h]
    constructor
    · intro hf; cases hf
    · rintro ⟨h1, _⟩; exact absurd h1 h
  · rw [if_neg h]
    push_neg at h
    rw [checkOthers_fst_iff]
    constructor
    · intro hall; exact ⟨h, hall⟩
    · rintro ⟨_, hall⟩; exact hall

/-- C1 (counterexample): as stated, the claim is false on the code.  At a
recipient whose local clock is `{r: 0, s: 0}`, the message `{s: 1, b: 5}`
from sender "s" is accepted by `isCausallyReady` even though participant
"b" — present only in the message's stamped clock — has stamped entry
5 > 0: the loop of the source ranges over the LOCAL clock's entries only,
so ids absent from the local clock are never checked. -/
theorem C1_counterexample :
    VectorClockManager.isCausallyReady
      { userId := "r", clock := [("r", 0), ("s", 0)] } [("s", 1), ("b", 5)] "s" = true ∧
    ¬ claimReadyC1 [("r", 0), ("s", 0)] [("s", 1), ("b", 5)] "s" := by
  constructor
  · decide
  · rintro ⟨-, hall⟩
    have h5 := hall "b" (by decide)
    exact absurd h5 (by decide)

/-- C1 (amended): `isCausallyReady` returns `true` iff the sender's
stamped entry equals the sender's local entry plus one AND, for every
entry `(p, t)` of the RECIPIENT'S LOCAL clock with `p` different from the
sender, the stamped entry for `p` (0 when missing) is at most `t`.
Participants present only in the message's stamped clock are not checked.
Entries missing from either map are read as 0. -/
theorem C1_amended (vcm : VectorClockManager) (mc : List (String × Nat)) (s : String) :
    vcm.isCausallyReady mc s = true ↔
      (jgetD mc s 0 = jgetD vcm.clock s 0 + 1 ∧
       ∀ p ∈ vcm.clock, p.1 ≠ s → jgetD mc p.1 0 ≤ p.2) :=
  isCausallyReady_true_iff vcm mc s

/-- C10: evaluating causal readiness is side-effect-free on the clock:
both `isCausallyReady` and `canDeliverBufferedMessage` return the vector
clock manager unchanged (the method bodies contain no `set`/`delete` on
`this.clock`). -/
theorem C10_readiness_pure :
    ∀ (vcm : VectorClockManager) (mc : List (String × Nat)) (s : String),
      (VectorClockManager.isCausallyReadyS vcm mc s).2 = vcm ∧
      (VectorClockManager.canDeliverBufferedMessageS vcm mc s).2 = vcm := by
  intro vcm mc s
  have h : (VectorClockManager.isCausallyReadyS vcm mc s).2 = vcm := by
    simp only [VectorClockManager.isCausallyReadyS]
    by_cases h : jgetD mc s 0 ≠ jgetD vcm.clock s 0 + 1
    · rw [if_pos h]
    · rw [if_neg h]; exact checkOthers_snd vcm mc s vcm.clock
  exact ⟨h, h⟩

theorem jhas_eq_false_of_not_mem {α : Type} (m : List (String × α)) (k : String)
    (h : k ∉ m.map Prod.fst) : jhas m k = false := by
  induction m with
  | nil => rfl
  | cons p rest ih =>
    simp only [List.map_cons, List.mem_cons] at h
    push_neg at h
    have h1 : (p.1 == k) = false := beq_eq_false_iff_ne.mpr (fun hh => h.1 hh.symm)
    rw [jhas_cons, h1, ih h.2]
    rfl

theorem foldl_merge_ge_init (snap : List (String × Nat)) (c : List (String × Nat))
    (k : String) :
    jgetD c k 0 ≤
      jgetD (snap.foldl (fun c p => jset c p.1 (max (jgetD c p.1 0) p.2)) c) k 0 := by
  induction snap generalizing c with
  | nil => exact le_refl _
  | cons p rest ih =>
    obtain ⟨a, t⟩ := p
    simp only [List.foldl_cons]
    refine le_trans ?_ (ih _)
    by_cases hk : k = a
    · subst hk
      simp only [jgetD, jget_jset_self]
      exact le_max_left _ _
    · simp only [jgetD, jget_jset_other _ _ _ _ hk]
      exact le_refl _

theorem foldl_merge_ge_snap (snap : List (String × Nat)) (c : List (String × Nat))
    (k : String) :
    jgetD snap k 0 ≤
      jgetD (snap.foldl (fun c p => jset c p.1 (max (jgetD c p.1 0) p.2)) c) k 0 := by
  induction snap generalizing c with
  | nil => simp [jgetD, jget]
  | cons p rest ih =>
    obtain ⟨a, t⟩ := p
    simp only [List.foldl_cons]
    cases h : jget rest k with
    | some w =>
      have h1 : jgetD ((a, t) :: rest) k 0 = w := by simp [jgetD, jget, h]
      have h2 : jgetD rest k 0 = w := by simp [jgetD, h]
      rw [h1, ← h2]
      exact ih _
    | none =>
      by_cases hak : a = k
      · have h1 : jgetD ((a, t) :: rest) k 0 = t := by simp [jgetD, jget, h, hak]
        rw [h1]
        refine le_trans ?_ (foldl_merge_ge_init rest _ k)
        subst hak
        simp only [jgetD, jget_jset_self]
        simp
      · have h1 : jgetD ((a, t) :: rest) k 0 = 0 := by simp [jgetD, jget, h, hak]
        rw [h1]
        exact Nat.zero_le _

theorem foldl_merge_entry (snap : List (String × Nat)) (c : List (String × Nat))
    (k : String) (h : (snap.map Prod.fst).Nodup) :
    jgetD (snap.foldl (fun c p => jset c p.1 (max (jgetD c p.1 0) p.2)) c) k 0 =
      max (jgetD c k 0) (jgetD snap k 0) := by
  induction snap generalizing c with
  | nil => simp [jgetD, jget]
  | cons p rest ih =>
    obtain ⟨a, t⟩ := p
    simp only [List.map_cons, List.nodup_cons] at h
    obtain ⟨hna, hnd⟩ := h
    simp only [List.foldl_cons]
    rw [ih _ hnd]
    by_cases hak : k = a
    · subst hak
      have hrest : jget rest k = none :=
        jget_eq_none_of_not_has rest k (jhas_eq_false_of_not_mem rest k hna)
      have h2 : jgetD rest k 0 = 0 := by simp [jgetD, hrest]
      have h3 : jgetD ((k, t) :: rest) k 0 = t := by simp [jgetD, jget, hrest]
      have h4 : jgetD (jset c k (max (jgetD c k 0) t)) k 0 = max (jgetD c k 0) t := by
        simp [jgetD, jget_jset_self]
      rw [h2, h3, h4]
      simp
    · have h4 : jgetD (jset c a (max (jgetD c a 0) t)) k 0 = jgetD c k 0 := by
        simp [jgetD, jget_jset_other _ _ _ _ hak]
      have hka : ¬ a = k := fun hh => hak hh.symm
      have h5 : jgetD ((a, t) :: rest) k 0 = jgetD rest k 0 := by
        simp only [jgetD, jget]
        cases jget rest k with
        | some w => rfl
        | none => simp [if_neg hka]
      rw [h4, h5]

theorem foldl_merge_isSome_preserved (snap : List (String × Nat))
    (c : List (String × Nat)) (k : String) (h : (jget c k).isSome) :
    (jget (snap.foldl (fun c p => jset c p.1 (max (jgetD c p.1 0) p.2)) c) k).isSome := by
  induction snap generalizing c with
  | nil => exact h
  | cons p rest ih =>
    obtain ⟨a, t⟩ := p
    simp only [List.foldl_cons]
    apply ih
    by_cases hk : k = a
    · subst hk; rw [jget_jset_self]; rfl
    · rw [jget_jset_other _ _ _ _ hk]; exact h

theorem foldl_merge_isSome_of_mem (snap : List (String × Nat))
    (c : List (String × Nat)) (k : String) (h : k ∈ snap.map Prod.fst) :
    (jget (snap.foldl (fun c p => jset c p.1 (max (jgetD c p.1 0) p.2)) c) k).isSome := by
  induction snap generalizing c with
  | nil => cases h
  | cons p rest ih =>
    obtain ⟨a, t⟩ := p
    simp only [List.map_cons, List.mem_cons] at h
    simp only [List.foldl_cons]
    rcases h with rfl | h'
    · apply foldl_merge_isSome_preserved
      rw [jget_jset_self]; rfl
    · exact ih _ h'

/-- C2: merge (modelled from the spec, the source never defines it) maps
every id to the maximum of the local and snapshot entries, implicitly adds
ids unknown locally, and in particular never decreases any component of
the pre-image clock.  The snapshot's keys are distinct (snapshots are
`Array.from(Map.entries())`). -/
theorem C2_merge_componentwise_max (vcm : VectorClockManager)
    (snap : List (String × Nat)) (hnd : (snap.map Prod.fst).Nodup) :
    (∀ k, jgetD (vcm.merge snap).clock k 0 =
        max (jgetD vcm.clock k 0) (jgetD snap k 0)) ∧
    (∀ k ∈ snap.map Prod.fst, (jget (vcm.merge snap).clock k).isSome = true) ∧
    (∀ k, jgetD vcm.clock k 0 ≤ jgetD (vcm.merge snap).clock k 0) := by
  refine ⟨fun k => ?_, fun k hk => ?_, fun k => ?_⟩
  · exact foldl_merge_entry snap vcm.clock k hnd
  · exact foldl_merge_isSome_of_mem snap vcm.clock k hk
  · exact foldl_merge_ge_init snap vcm.clock k

/-- C2 (witness): the merge of snapshot `{b: 5, c: 3}` into local clock
`{a: 1, b: 2}` holds `max` at "b". -/
theorem C2_witness :
    jgetD ((VectorClockManager.mk "a" [("a", 1), ("b", 2)]).merge
      [("b", 5), ("c", 3)]).clock "b" 0 =
      max (jgetD [("a", 1), ("b", 2)] "b" 0) (jgetD [("b", 5), ("c", 3)] "b" 0) :=
  (C2_merge_componentwise_max (VectorClockManager.mk "a" [("a", 1), ("b", 2)])
    [("b", 5), ("c", 3)] (by decide)).1 "b"

theorem merge_then_not_ready (vcm : VectorClockManager)
    (mc : List (String × Nat)) (s : String) :
    (vcm.merge mc).isCausallyReady mc s = false := by
  have hle : jgetD mc s 0 ≤ jgetD (vcm.merge mc).clock s 0 :=
    foldl_merge_ge_snap mc vcm.clock s
  simp only [VectorClockManager.isCausallyReady, VectorClockManager.isCausallyReadyS]
  rw [if_pos (by omega : jgetD mc s 0 ≠ jgetD (vcm.merge mc).clock s 0 + 1)]

/-- C3 (code bug): `handleChatMessage` merges the stamped clock into the
local clock BEFORE the readiness decision and regardless of its outcome —
against the spec, which requires the merge only upon delivery.  Concretely:
recipient "b" with clock `{b: 0}` receives the very first message from
"a", stamped `{a: 1}`; the code merges first (clock becomes
`{b: 0, a: 1}`), the readiness check then sees `message[a] = 1 ≠
local[a] + 1 = 2` and buffers the message forever, displaying nothing.
In general a message checked after merging its own stamped clock can never
be causally ready, so the immediate-delivery branch is unreachable.
(In the actual source the situation is even worse: the called `merge`
method does not exist, so the call throws and the frame is dropped.) -/
theorem C3_merge_precedes_decision :
    ((handleChatMessage appB msgA1 10).vectorClock.clock = [("b", 0), ("a", 1)] ∧
     jhas (handleChatMessage appB msgA1 10).causalEngine.messageBuffer "m1" = true ∧
     (handleChatMessage appB msgA1 10).messages = [] ∧
     (handleChatMessage appB msgA1 10).bufferedMessages = [msgA1]) ∧
    (∀ (vcm : VectorClockManager) (mc : List (String × Nat)) (s : String),
      (vcm.merge mc).isCausallyReady mc s = false) := by
  constructor
  · refine ⟨by decide, by decide, by decide, by decide⟩
  · exact merge_then_not_ready

/-- C4 (counterexample): `processMessage` performs no duplicate check.
Re-offering `msgA2`, whose id "m1" is already in the buffer of
`engWithM1`, neither leaves the engine unchanged nor reports `duplicate`:
`totalProcessed` is bumped, the buffer entry is overwritten (its attempt
counter reset to 0, its `receivedAt` renewed), and the reason is again
`waiting_for_causal_dependencies`. -/
theorem C4_counterexample :
    jhas engWithM1.messageBuffer msgA2.id = true ∧
    (processMessage engWithM1 msgA2 vcmAB "a" 200).1.reason =
      some "waiting_for_causal_dependencies" ∧
    (processMessage engWithM1 msgA2 vcmAB "a" 200).1.reason ≠ some "duplicate" ∧
    (processMessage engWithM1 msgA2 vcmAB "a" 200).2 ≠ engWithM1 := by
  refine ⟨by decide, by decide, by decide, by decide⟩

/-- C4 (amended): there is no duplicate suppression.  Offering any message
that is not causally ready — in particular one whose id is already
buffered or already delivered — increments `totalProcessed`, overwrites
the buffer entry for that id with a fresh one (`attempts` reset to 0,
`receivedAt` set to the current time), and returns `delivered_now = false`
with reason `waiting_for_causal_dependencies`; the reason `duplicate` is
never produced.  (A ready re-offer is instead delivered again, appending a
second delivered record.) -/
theorem C4_amended (eng : CausalOrderEngine) (m : Message) (vcm : VectorClockManager)
    (s : String) (now : Nat) (h : vcm.isCausallyReady m.vectorClock s = false) :
    (processMessage eng m vcm s now).1.reason = some "waiting_for_causal_dependencies" ∧
    (processMessage eng m vcm s now).1.isCausallyReady = false ∧
    (processMessage eng m vcm s now).2.stats.totalProcessed =
      eng.stats.totalProcessed + 1 ∧
    jget (processMessage eng m vcm s now).2.messageBuffer m.id =
      some { message := m, receivedAt := now, attempts := 0 } := by
  simp only [processMessage, h]
  exact ⟨rfl, rfl, rfl, jget_jset_self _ _ _⟩

/-- C4 (witness): re-offering the already-buffered `msgA2` overwrites its
entry with attempts 0 and the new receipt time. -/
theorem C4_witness :
    jget (processMessage engWithM1 msgA2 vcmAB "a" 200).2.messageBuffer msgA2.id =
      some { message := msgA2, receivedAt := 200, attempts := 0 } :=
  (C4_amended engWithM1 msgA2 vcmAB "a" 200 (by decide)).2.2.2

theorem checkBufLoop_fst (vcm : VectorClockManager) (now : Nat)
    (buf : List (String × BufferEntry)) :
    (checkBufLoop vcm now buf).1 =
      (buf.filter (fun kv =>
        vcm.canDeliverBufferedMessage kv.2.message.vectorClock kv.2.message.userId)).map
        (fun kv => { messageId := kv.1, message := kv.2.message,
                     receivedAt := kv.2.receivedAt, attempts := kv.2.attempts,
                     waitTime := now - kv.2.receivedAt }) := by
  induction buf with
  | nil => rfl
  | cons p rest ih =>
    obtain ⟨mid, be⟩ := p
    simp only [checkBufLoop]
    by_cases hr : vcm.canDeliverBufferedMessage be.message.vectorClock be.message.userId = true
    · rw [if_pos hr]
      simp only [List.filter_cons]
      rw [if_pos (by exact hr)]
      simp only [List.map_cons]
      rw [ih]
    · rw [if_neg hr]
      simp only [List.filter_cons]
      rw [if_neg (by exact hr)]
      exact ih

theorem checkBufLoop_empty_not_ready (vcm : VectorClockManager) (now : Nat)
    (buf : List (String × BufferEntry))
    (h : (checkBufLoop vcm now buf).1 = []) :
    ∀ kv ∈ (checkBufLoop vcm now buf).2,
      vcm.canDeliverBufferedMessage kv.2.message.vectorClock kv.2.message.userId = false := by
  induction buf with
  | nil => intro kv hkv; cases hkv
  | cons p rest ih =>
    obtain ⟨mid, be⟩ := p
    simp only [checkBufLoop] at h ⊢
    by_cases hr : vcm.canDeliverBufferedMessage be.message.vectorClock be.message.userId = true
    · rw [if_pos hr] at h
      cases h
    · rw [if_neg hr] at h ⊢
      intro kv hkv
      rcases List.mem_cons.mp hkv with rfl | hkv'
      · exact Bool.eq_false_iff.mpr hr
      · exact ih h kv hkv'

/-- C5: the drain fixpoint.  For every engine state and clock — hence
after any sequence of offer and drain operations — when the draining
discipline (`drainUntilEmpty`: re-run the pass of `deliverBufferedMessages`
until `checkBufferedMessages` returns no ready message) terminates with an
empty pass, no entry remaining in the buffer is causally ready at the
resulting clock. -/
theorem C5_drain_fixpoint (fuel : Nat) (eng : CausalOrderEngine)
    (vcm : VectorClockManager) (now : Nat)
    (h : (drainUntilEmpty fuel eng vcm now).2.2 = true) :
    noBufferedReady (drainUntilEmpty fuel eng vcm now).1
      (drainUntilEmpty fuel eng vcm now).2.1 = true := by
  induction fuel generalizing eng vcm with
  | zero => simp [drainUntilEmpty] at h
  | succ n ih =>
    simp only [drainUntilEmpty] at h ⊢
    by_cases he : (checkBufferedMessages eng vcm now).1.isEmpty = true
    · rw [if_pos he] at h ⊢
      simp only [noBufferedReady, List.all_eq_true]
      intro kv hkv
      have hready := checkBufLoop_empty_not_ready vcm now eng.messageBuffer
        (List.isEmpty_iff.mp he) kv hkv
      simp [hready]
    · rw [if_neg he] at h ⊢
      exact ih _ _ h

/-- C5 (witness): an engine stuck with one message whose predecessors can
never arrive reaches the fixpoint after one empty pass; the surviving
buffer entry is not ready. -/
theorem C5_witness :
    noBufferedReady (drainUntilEmpty 1 engStuck vcmAB 0).1
      (drainUntilEmpty 1 engStuck vcmAB 0).2.1 = true :=
  C5_drain_fixpoint 1 engStuck vcmAB 0 (by decide)

/-- C6 (counterexample): `checkBufferedMessages` returns ready messages in
buffer insertion order and sorts nothing.  With two causally incomparable
messages both ready at `vcmABC` — "m2" buffered first but received at 100,
"m1" buffered second but received at 50 — the returned pass is
`[m2, m1]`, which violates the claimed received_at-ascending tie-break
(the claim requires "m1" first). -/
theorem C6_counterexample :
    (checkBufferedMessages engTwoReady vcmABC 100).1.map (fun ri => ri.messageId) =
      ["m2", "m1"] ∧
    (checkBufferedMessages engTwoReady vcmABC 100).1.length = 2 ∧
    sortedBy claimDrainLE (checkBufferedMessages engTwoReady vcmABC 100).1 = false := by
  refine ⟨by decide, by decide, by decide⟩

/-- C6 (amended): one pass over the buffer returns exactly the causally
ready entries, in the buffer's insertion order (the order in which the
messages were buffered), with their receipt data; no reordering by
happens-before, received_at or message_id takes place.  The order is
deterministic: it is a function of the buffer contents and the clock. -/
theorem C6_amended (eng : CausalOrderEngine) (vcm : VectorClockManager) (now : Nat) :
    (checkBufferedMessages eng vcm now).1 =
      (eng.messageBuffer.filter (fun kv =>
        vcm.canDeliverBufferedMessage kv.2.message.vectorClock kv.2.message.userId)).map
        (fun kv => { messageId := kv.1, message := kv.2.message,
                     receivedAt := kv.2.receivedAt, attempts := kv.2.attempts,
                     waitTime := now - kv.2.receivedAt }) :=
  checkBufLoop_fst vcm now eng.messageBuffer

theorem lastMatch_map_invariant {α : Type} (p : α → Bool) (g : α → α) (l : List α)
    (hg : ∀ x ∈ l, p (g x) = p x ∧ (p x = true → g x = x)) :
    lastMatch p (l.map g) = lastMatch p l := by
  induction l with
  | nil => rfl
  | cons x rest ih =>
    simp only [List.map_cons, lastMatch]
    rw [ih (fun y hy => hg y (List.mem_cons_of_mem _ hy))]
    cases hrest : lastMatch p rest with
    | some r => rfl
    | none =>
      show (if p (g x) = true then some (g x) else none) =
        (if p x = true then some x else none)
      obtain ⟨h1, h2⟩ := hg x (List.mem_cons_self _ _)
      rw [h1]
      by_cases hp : p x = true
      · rw [if_pos hp, if_pos hp, h2 hp]
      · rw [if_neg hp, if_neg hp]

theorem initClockFold_jget (rid cid k : String) (hk : k ≠ cid)
    (clients : List SClient) : ∀ acc,
    jget (clients.foldl
        (fun acc c => if c.roomId = rid ∧ c.id ≠ cid then
          jset acc c.id (jgetD c.vectorClock c.id 0) else acc) acc) k =
      (match lastMatch (fun cl => cl.roomId == rid && cl.id == k) clients with
       | some cl => some (jgetD cl.vectorClock cl.id 0)
       | none => jget acc k) := by
  induction clients with
  | nil => intro acc; rfl
  | cons c rest ih =>
    intro acc
    simp only [List.foldl_cons, lastMatch]
    rw [ih]
    cases hrest : lastMatch (fun cl => cl.roomId == rid && cl.id == k) rest with
    | some r => rfl
    | none =>
      show jget (if c.roomId = rid ∧ c.id ≠ cid then
          jset acc c.id (jgetD c.vectorClock c.id 0) else acc) k =
        (match (if (c.roomId == rid && c.id == k) = true then some c else none) with
         | some cl => some (jgetD cl.vectorClock cl.id 0)
         | none => jget acc k)
      by_cases hroom : c.roomId = rid
      · by_cases hid : c.id = k
        · have hpc : (c.roomId == rid && c.id == k) = true := by
            simp [hroom, hid]
          rw [hpc, if_pos rfl]
          show jget (if c.roomId = rid ∧ c.id ≠ cid then
              jset acc c.id (jgetD c.vectorClock c.id 0) else acc) k =
            some (jgetD c.vectorClock c.id 0)
          have hcond : c.roomId = rid ∧ c.id ≠ cid := ⟨hroom, by rw [hid]; exact hk⟩
          rw [if_pos hcond]
          rw [hid]
          exact jget_jset_self _ _ _
        · have hpc : (c.roomId == rid && c.id == k) = false := by
            simp [hid]
          rw [hpc]
          show jget (if c.roomId = rid ∧ c.id ≠ cid then
              jset acc c.id (jgetD c.vectorClock c.id 0) else acc) k = jget acc k
          by_cases hc : c.id = cid
          · have hcond : ¬(c.roomId = rid ∧ c.id ≠ cid) := fun hh => hh.2 hc
            rw [if_neg hcond]
          · have hcond : c.roomId = rid ∧ c.id ≠ cid := ⟨hroom, hc⟩
            rw [if_pos hcond]
            exact jget_jset_other _ _ _ _ (fun hh => hid hh.symm)
      · have hpc : (c.roomId == rid && c.id == k) = false := by
          simp [hroom]
        rw [hpc]
        show jget (if c.roomId = rid ∧ c.id ≠ cid then
            jset acc c.id (jgetD c.vectorClock c.id 0) else acc) k = jget acc k
        have hcond : ¬(c.roomId = rid ∧ c.id ≠ cid) := fun hh => hroom hh.1
        rw [if_neg hcond]

theorem handleJoin_clients (s : ChatServer) (cid uname : String) (drid : Option String)
    (room : SRoom) (hroom : jget s.rooms (drid.getD "main") = some room) :
    (handleJoin s cid uname drid).clients =
      ((updateClient s cid (fun c => { c with username := some uname, roomId := drid.getD "main" })).clients).map
        (fun c => if c.id = cid then { c with vectorClock := jset (initClockLoop ((updateClient s cid (fun c => { c with username := some uname, roomId := drid.getD "main" })).clients) (drid.getD "main") cid) cid 0 } else c) := by
  have hroom' : jget (updateClient s cid (fun c => { c with username := some uname, roomId := drid.getD "main" })).rooms (drid.getD "main") = some room := hroom
  simp only [handleJoin, hroom']
  rfl

/-- C7 (amended): after a join into an existing room, the joiner's
server-side clock maps the joiner's own id to 0 and, for every other id
`k`, holds exactly the entries contributed by the connected clients whose
CURRENT `roomId` equals the joined room — whether or not they have joined
and appear in the room's member set — each valued at that client's own
self-entry (0 when absent), the last such client winning; ids with no such
client are absent. -/
theorem C7_amended (s : ChatServer) (cid uname : String) (drid : Option String)
    (room : SRoom) (hroom : jget s.rooms (drid.getD "main") = some room) :
    ∀ c ∈ (handleJoin s cid uname drid).clients, c.id = cid →
      jget c.vectorClock cid = some 0 ∧
      ∀ k, k ≠ cid →
        jget c.vectorClock k =
          (lastMatch (fun cl => cl.roomId == drid.getD "main" && cl.id == k) s.clients).map
            (fun cl => jgetD cl.vectorClock cl.id 0) := by
  intro c hc hcid
  rw [handleJoin_clients s cid uname drid room hroom] at hc
  obtain ⟨c', hc', hceq⟩ := List.mem_map.mp hc
  by_cases h' : c'.id = cid
  · rw [if_pos h'] at hceq
    subst hceq
    constructor
    · exact jget_jset_self _ _ _
    · intro k hk
      show jget (jset (initClockLoop ((updateClient s cid (fun c => { c with username := some uname, roomId := drid.getD "main" })).clients) (drid.getD "main") cid) cid 0) k =
        (lastMatch (fun cl => cl.roomId == drid.getD "main" && cl.id == k) s.clients).map
          (fun cl => jgetD cl.vectorClock cl.id 0)
      rw [jget_jset_other _ _ _ _ hk]
      simp only [initClockLoop]
      rw [initClockFold_jget (drid.getD "main") cid k hk
        ((updateClient s cid (fun c => { c with username := some uname, roomId := drid.getD "main" })).clients) []]
      have hg : ∀ x ∈ s.clients,
          (((if x.id = cid then { x with username := some uname, roomId := drid.getD "main" } else x) : SClient).roomId == drid.getD "main" &&
           ((if x.id = cid then { x with username := some uname, roomId := drid.getD "main" } else x) : SClient).id == k) =
            (x.roomId == drid.getD "main" && x.id == k) ∧
          ((x.roomId == drid.getD "main" && x.id == k) = true →
            (if x.id = cid then { x with username := some uname, roomId := drid.getD "main" } else x) = x) := by
        intro x _
        by_cases hxid : x.id = cid
        · constructor
          · rw [if_pos hxid]
            have h1 : x.id ≠ k := by rw [hxid]; exact fun hh => hk hh.symm
            have h2 : (x.id == k) = false := beq_eq_false_iff_ne.mpr h1
            show ((drid.getD "main" : String) == drid.getD "main" && x.id == k) =
              (x.roomId == drid.getD "main" && x.id == k)
            rw [h2]
            simp
          · intro hpx
            exfalso
            rw [Bool.and_eq_true] at hpx
            have h2 := hpx.2
            rw [beq_iff_eq] at h2
            rw [hxid] at h2
            exact hk h2.symm
        · exact ⟨by rw [if_neg hxid], fun _ => by rw [if_neg hxid]⟩
      have h2 : lastMatch (fun cl => cl.roomId == drid.getD "main" && cl.id == k)
          ((updateClient s cid (fun c => { c with username := some uname, roomId := drid.getD "main" })).clients) =
          lastMatch (fun cl => cl.roomId == drid.getD "main" && cl.id == k) s.clients :=
        lastMatch_map_invariant _ _ _ hg
      rw [h2]
      cases lastMatch (fun cl => cl.roomId == drid.getD "main" && cl.id == k) s.clients with
      | some r => rfl
      | none => rfl
  · rw [if_neg h'] at hceq
    subst hceq
    exact absurd hcid h'

/-- C7 (counterexample): joining "main" while another connection "x" is
present that never joined (it has no username and is in no member set,
but its `roomId` defaults to "main" at connection time) gives the joiner
"c" the clock `{x: 0, c: 0}`: an entry for a non-member, contradicting
"maps each existing member … and contains no other entries" (the member
set is empty before the join and `["c"]` after it). -/
theorem C7_counterexample :
    ((findClient (handleJoin serverAnon "c" "Carol" none) "c").map
      (fun c => c.vectorClock)) = some [("x", 0), ("c", 0)] ∧
    ((jget serverAnon.rooms "main").map (fun r => r.users)) = some [] ∧
    ((jget (handleJoin serverAnon "c" "Carol" none).rooms "main").map
      (fun r => r.users)) = some ["c"] := by
  refine ⟨by decide, by decide, by decide⟩

/-- C7 (witness): in `serverJoined` the joiner "c" ends with self-entry 0
(its full clock is `{a: 3, c: 0}`). -/
theorem C7_witness :
    jget (SClient.mk "c" (some "Carol") "main" [("a", 3), ("c", 0)]).vectorClock "c" =
      some 0 :=
  (C7_amended serverJoined "c" "Carol" none (SRoom.mk "main" "Main Chat Room" ["a"])
    (by decide) (SClient.mk "c" (some "Carol") "main" [("a", 3), ("c", 0)])
    (by decide) rfl).1

/-- C8 (counterexample): a chat frame with `simulate_delay = true` and
`delay_ms = 0` is NOT deferred by its `delay_ms`: the JavaScript fallback
`data.metadata.delayMs || 1000` treats 0 as absent, and the broadcast is
scheduled 1000 ms out instead of 0 ms. -/
theorem C8_counterexample :
    (handleChat serverOneUser "a" "hi" true (some 0) "m1" 5).2.2.map Prod.fst =
      [1000] ∧ (1000 : Nat) ≠ 0 := by
  refine ⟨by decide, by decide⟩

/-- C8 (amended): for an inbound chat frame with `simulate_delay = true`,
the broadcast is scheduled after `delay_ms` milliseconds when `delay_ms`
is present and non-zero, and after 1000 ms when it is absent or zero
(`delayMs || 1000`); the sender's clock increment, the history append and
the `message_delivered` ack are all performed synchronously, before the
deferred broadcast fires. -/
theorem C8_amended (s : ChatServer) (cid text : String) (dm : Option Nat)
    (newId : String) (now : Nat) (client : SClient) (room : SRoom)
    (h1 : findClient s cid = some client)
    (h2 : jget s.rooms client.roomId = some room) :
    (handleChat s cid text true dm newId now).2.1 = [ServerEmit.ack cid newId] ∧
    (handleChat s cid text true dm newId now).2.2 =
      [(defaultDelay dm, ServerEmit.broadcast client.roomId
        (SMessage.mk newId client.id client.username text
          (jset client.vectorClock client.id (jgetD client.vectorClock client.id 0 + 1))
          now client.roomId true dm))] ∧
    jget (handleChat s cid text true dm newId now).1.messageHistory client.roomId =
      some ((jget s.messageHistory client.roomId).getD [] ++
        [SMessage.mk newId client.id client.username text
          (jset client.vectorClock client.id (jgetD client.vectorClock client.id 0 + 1))
          now client.roomId true dm]) ∧
    (findClient (handleChat s cid text true dm newId now).1 cid).map
        (fun c => jget c.vectorClock client.id) =
      some (some (jgetD client.vectorClock client.id 0 + 1)) := by
  have hclid : client.id = cid := by
    have := List.find?_some h1
    rwa [beq_iff_eq] at this
  have h1' : s.clients.find? (fun c => c.id == cid) = some client := h1
  simp only [handleChat, h1, h2, if_true]
  refine ⟨by trivial, ?_, ?_, ?_⟩
  · cases dm with
    | none => rfl
    | some d => simp [defaultDelay]
  · exact jget_jset_self _ _ _
  · show Option.map (fun c => jget c.vectorClock client.id)
        ((s.clients.map (fun c => if c.id = cid then { c with vectorClock := jset client.vectorClock client.id (jgetD client.vectorClock client.id 0 + 1) } else c)).find?
          (fun c => c.id == cid)) =
      some (some (jgetD client.vectorClock client.id 0 + 1))
    rw [List.find?_map]
    have hcomp : ((fun (c : SClient) => c.id == cid) ∘
        (fun c => if c.id = cid then { c with vectorClock := jset client.vectorClock client.id (jgetD client.vectorClock client.id 0 + 1) } else c)) =
        (fun (c : SClient) => c.id == cid) := by
      funext x
      by_cases hx : x.id = cid
      · simp only [Function.comp_apply, if_pos hx]
      · simp only [Function.comp_apply, if_neg hx]
    rw [hcomp, h1']
    show some (jget (if client.id = cid then { client with vectorClock := jset client.vectorClock client.id (jgetD client.vectorClock client.id 0 + 1) } else client).vectorClock client.id) =
      some (some (jgetD client.vectorClock client.id 0 + 1))
    rw [if_pos hclid]
    exact congrArg _ (jget_jset_self _ _ _)

/-- C8 (witness): with `delay_ms = 7` the ack to the sender is emitted
synchronously. -/
theorem C8_witness :
    (handleChat serverOneUser "a" "hi" true (some 7) "m1" 5).2.1 =
      [ServerEmit.ack "a" "m1"] :=
  (C8_amended serverOneUser "a" "hi" (some 7) "m1" 5
    (SClient.mk "a" (some "Alice") "main" [("a", 0)])
    (SRoom.mk "main" "Main Chat Room" ["a"]) (by decide) (by decide)).1

set_option maxRecDepth 40000 in
/-- C9 (counterexample): the room history is never trimmed.  After 51 chat
frames the stored history of "main" holds 51 messages, refuting "retains
at most the 50 most recent messages with the oldest dropped first". -/
theorem C9_counterexample :
    ((jget (chatN 51).messageHistory "main").getD []).length = 51 ∧
    ¬ (51 ≤ 50) := by
  refine ⟨by decide, by decide⟩

/-- C9 (amended): the stored history grows without bound — every chat
appends one message and nothing is dropped — while `request_history` is
answered with `history.slice(-50)` (the last `min(50, n)` messages)
together with the total count `n`. -/
theorem C9_amended (s : ChatServer) (cid text newId : String) (now : Nat)
    (client : SClient) (room : SRoom)
    (h1 : findClient s cid = some client)
    (h2 : jget s.rooms client.roomId = some room) :
    sendHistory s cid =
      some ((((jget s.messageHistory client.roomId).getD []).drop
        ((((jget s.messageHistory client.roomId).getD []).length) - 50)),
        (((jget s.messageHistory client.roomId).getD []).length)) ∧
    ((jget (handleChat s cid text false none newId now).1.messageHistory client.roomId).map
        List.length) = some ((((jget s.messageHistory client.roomId).getD []).length) + 1) := by
  constructor
  · simp only [sendHistory, h1]
  · simp only [handleChat, h1, h2, Bool.false_eq_true, if_false]
    rw [jget_jset_self]
    show some ((((jget (updateClient s cid (fun c => { c with vectorClock := jset client.vectorClock client.id (jgetD client.vectorClock client.id 0 + 1) })).messageHistory client.roomId).getD []) ++ [SMessage.mk newId client.id client.username text (jset client.vectorClock client.id (jgetD client.vectorClock client.id 0 + 1)) now client.roomId false none]).length) = some ((((jget s.messageHistory client.roomId).getD []).length) + 1)
    rw [List.length_append]
    rfl

/-- C9 (witness): with an empty history the reply carries no messages and
total 0. -/
theorem C9_witness : sendHistory serverOneUser "a" = some ([], 0) := by
  have h := (C9_amended serverOneUser "a" "t" "m1" 0
    (SClient.mk "a" (some "Alice") "main" [("a", 0)])
    (SRoom.mk "main" "Main Chat Room" ["a"]) (by decide) (by decide)).1
  simpa using h
